import Mathlib

/-!
Shallow embedding of the MDLH_Dictionary backend's query-execution,
SQL-scanning, caching, identifier-safety and metadata-error-handling logic
(`src/backend/app/routers/query.py`, `src/backend/app/routers/metadata.py`,
`src/backend/app/services/cache.py`, `src/backend/app/services/snowflake.py`),
together with theorems settling the specification claims about it.

Strings are modelled with Lean `String`/`List Char`; Python `None`-able
fields become `Option`; dict-backed stores become functions into `Option`.
Whitespace classes follow the ASCII subset (the inputs at issue are ASCII).
-/

namespace MDLH

/-- Model of `str.upper()` (ASCII), computed on the character list so that it
evaluates by kernel reduction. -/
def strUpper (s : String) : String :=
  String.mk (s.data.map Char.toUpper)

/-- Model of `str.lower()` (ASCII). -/
def strLower (s : String) : String :=
  String.mk (s.data.map Char.toLower)

/-- Model of `str.strip()`: drop whitespace from both ends. -/
def pyStrip (s : String) : String :=
  String.mk
    (((s.data.dropWhile Char.isWhitespace).reverse.dropWhile
        Char.isWhitespace).reverse)

/-- Model of `name.replace('"', '""')`: each double-quote character is doubled
(single-character needle, so replacement is per character). -/
def doubleQuotes (name : String) : String :=
  String.mk
    ((name.data.map (fun c => if c = '"' then ['"', '"'] else [c])).flatten)

/-- Model of `str.split('.')` (single-character separator): the separated chunks,
including empty ones. -/
def splitOnDot : List Char → List (List Char)
  | [] => [[]]
  | c :: rest =>
    match splitOnDot rest with
    | [] => if c = '.' then [[], []] else [[c]]
    | p :: ps => if c = '.' then [] :: p :: ps else (c :: p) :: ps

/-- The `QueryStatus` enum from `app/models/schemas.py`. -/
inductive QueryStatus where
  | PENDING
  | RUNNING
  | SUCCESS
  | FAILED
  | CANCELLED
deriving DecidableEq, Repr

/-- String value of a status, as rendered into Python error messages. -/
def QueryStatus.str : QueryStatus → String
  | .PENDING => "PENDING"
  | .RUNNING => "RUNNING"
  | .SUCCESS => "SUCCESS"
  | .FAILED => "FAILED"
  | .CANCELLED => "CANCELLED"

/-- One entry of `session.query_results` (`routers/query.py`): the dict stored
per query id. Keys absent from the dict are `none`; row values are abstracted
by a type parameter `α`. -/
structure StoredResult (α : Type) where
  status : QueryStatus
  columns : Option (List String) := none
  rows : Option (List (List α)) := none
  row_count : Option Nat := none
  error_message : Option String := none
  execution_time_ms : Option Nat := none
  started_at : Option String := none
  completed_at : Option String := none
deriving DecidableEq, Repr

/-- A FastAPI `HTTPException` as raised by the query router: status code
plus detail message. -/
structure HTTPError where
  status_code : Nat
  detail : String
deriving DecidableEq, Repr

/-- Body of `QueryResultsResponse` (`app/models/schemas.py`) as built by
`get_query_results`. -/
structure QueryResultsResponse (α : Type) where
  columns : List String
  rows : List (List α)
  total_rows : Nat
  page : Nat
  page_size : Nat
  has_more : Bool
deriving DecidableEq, Repr

/-- Model of `get_query_results` (`routers/query.py` lines 537-576), acting on the
stored entry for an existing query id: FAILED and RUNNING are rejected,
any other status is paginated with `rows[start:end]` slicing. -/
def get_query_results (r : StoredResult α) (page page_size : Nat) :
    Except HTTPError (QueryResultsResponse α) :=
  if r.status = .FAILED then
    .error ⟨400, "Query failed: " ++ r.error_message.getD "Unknown error"⟩
  else if r.status = .RUNNING then
    .error ⟨202, "Query is still running"⟩
  else
    let rows := r.rows.getD []
    let columns := r.columns.getD []
    let start := (page - 1) * page_size
    let stop := start + page_size
    .ok { columns := columns
          rows := (rows.drop start).take page_size
          total_rows := rows.length
          page := page
          page_size := page_size
          has_more := decide (stop < rows.length) }

/-- Model of `cancel_query` (`routers/query.py` lines 579-602), acting on the stored
entry for an existing query id. Returns the (possibly updated) entry and the
HTTP outcome; `now` stands for `datetime.utcnow().isoformat()`. -/
def cancel_query (now : String) (r : StoredResult α) :
    StoredResult α × Except HTTPError String :=
  if r.status ≠ .RUNNING then
    (r, .error ⟨400, "Cannot cancel query with status '" ++ r.status.str ++ "'"⟩)
  else
    ({ r with status := .CANCELLED, completed_at := some now },
     .ok "Query cancelled")

/-! ### SQL lexical scanner: comment stripping -/

/-- Model of `re.sub(r'/\*.*?\*/', '', sql, flags=re.DOTALL)`: repeatedly delete from
each `/*` to the nearest following `*/`; a `/*` with no closing `*/` is kept
(the regex then has no match). Fueled by the input length (each step consumes
at least one character). -/
def removeBlockCommentsAux : Nat → List Char → List Char
  | 0, s => s
  | _ + 1, [] => []
  | fuel + 1, c :: rest =>
    if c = '/' then
      match rest with
      | '*' :: tail =>
        match dropThroughClose fuel tail with
        | some remaining => removeBlockCommentsAux fuel remaining
        | none => c :: rest
      | _ => c :: removeBlockCommentsAux fuel rest
    else
      c :: removeBlockCommentsAux fuel rest
where
  /-- Drop characters until just past the first `*/`; `none` if there is no
  `*/` in the input. -/
  dropThroughClose : Nat → List Char → Option (List Char)
  | 0, _ => none
  | _ + 1, [] => none
  | fuel + 1, c :: rest =>
    if c = '*' then
      match rest with
      | '/' :: tail => some tail
      | _ => dropThroughClose fuel rest
    else
      dropThroughClose fuel rest

/-- Block-comment removal on strings. -/
def removeBlockComments (sql : String) : String :=
  String.mk (removeBlockCommentsAux (sql.data.length + 1) sql.data)

/-- Both `re.sub(r'--.*?$', '', sql, flags=re.MULTILINE)` and
`re.sub(r'--[^\n]*', '', sql)` agree: delete from each `--` up to (not
including) the next newline or the end of the input. -/
def removeLineCommentsAux : Nat → List Char → List Char
  | 0, s => s
  | _ + 1, [] => []
  | fuel + 1, c :: rest =>
    if c = '-' then
      match rest with
      | '-' :: tail => removeLineCommentsAux fuel (tail.dropWhile (· ≠ '\n'))
      | _ => c :: removeLineCommentsAux fuel rest
    else
      c :: removeLineCommentsAux fuel rest

/-- Line-comment removal on strings. -/
def removeLineComments (sql : String) : String :=
  String.mk (removeLineCommentsAux (sql.data.length + 1) sql.data)

/-! ### SQL lexical scanner: statement splitting (`_split_sql_statements`) -/

/-- Append `cur` (trimmed) to the accumulated statements, dropping it when it
trims to the empty string — the `if stmt:` guard in the Python loop. -/
def flushStmt (acc : List String) (cur : List Char) : List String :=
  let stmt := pyStrip (String.mk cur)
  if stmt = "" then acc else acc ++ [stmt]

/-- The character loop of `_split_sql_statements` (`routers/query.py` lines
43-68): state is the accumulated statements, the current statement's
characters, and the open string-literal quote character (`none` when not
inside a string literal). -/
def splitLoop : List Char → List String → List Char → Option Char → List String
  | [], acc, cur, _ => flushStmt acc cur
  | c :: rest, acc, cur, none =>
    if c = '\'' ∨ c = '"' then
      splitLoop rest acc (cur ++ [c]) (some c)
    else if c = ';' then
      splitLoop rest (flushStmt acc cur) [] none
    else
      splitLoop rest acc (cur ++ [c]) none
  | c :: rest, acc, cur, some q =>
    if c = q then
      splitLoop rest acc (cur ++ [c]) none
    else
      splitLoop rest acc (cur ++ [c]) (some q)

/-- Model of `_split_sql_statements` (`routers/query.py` lines 25-70): block comments
removed first, then line comments, then the string-aware semicolon split. -/
def split_sql_statements (sql : String) : List String :=
  splitLoop (removeLineComments (removeBlockComments sql)).data [] [] none

/-- Model of `_count_statements` (`routers/query.py` lines 73-75). -/
def count_statements (sql : String) : Nat :=
  (split_sql_statements sql).length

/-- Decidable check that scanning the characters from string-literal state
`sc` meets no semicolon outside a string literal (the splitter's own
string-tracking discipline). -/
def noUnquotedSemi : List Char → Option Char → Bool
  | [], _ => true
  | c :: rest, none =>
    if c = '\'' ∨ c = '"' then noUnquotedSemi rest (some c)
    else if c = ';' then false
    else noUnquotedSemi rest none
  | c :: rest, some q =>
    if c = q then noUnquotedSemi rest none
    else noUnquotedSemi rest (some q)

/-! ### SQL lexical scanner: table-reference extraction
(`_extract_tables_from_sql`, `routers/query.py` lines 78-110)

The three patterns are modelled as explicit matchers with Python `re`
semantics: greedy identifier runs, and for the trailing `(?!\.)` lookahead
the engine's backtracking (a maximal identifier run followed by `.` is
shortened by one character, which then satisfies the lookahead; a
single-character run cannot be shortened and the match fails). -/

/-- Python `\s` on ASCII. -/
def isPySpace (c : Char) : Bool :=
  c = ' ' ∨ c = '\t' ∨ c = '\n' ∨ c = '\r' ∨ c = '\x0b' ∨ c = '\x0c'

/-- The `[A-Za-z0-9_]` continuation character of the extraction patterns. -/
def isIdentChar (c : Char) : Bool :=
  c.isAlphanum ∨ c = '_'

/-- The `[A-Za-z_]` leading character of the extraction patterns. -/
def isIdentStart (c : Char) : Bool :=
  c.isAlpha ∨ c = '_'

/-- Greedy `[A-Za-z_][A-Za-z0-9_]*`: the maximal identifier run and the rest. -/
def takeIdent : List Char → Option (List Char × List Char)
  | [] => none
  | c :: rest =>
    if isIdentStart c then
      some (c :: rest.takeWhile isIdentChar, rest.dropWhile isIdentChar)
    else
      none

/-- Match of `(?:FROM|JOIN)` with `re.IGNORECASE`, followed by `\s+` (at least one
whitespace character): returns the rest after the whitespace run. -/
def matchKwWs (l : List Char) : Option (List Char) :=
  match l with
  | a :: b :: c :: d :: rest =>
    let kw := String.mk [a.toUpper, b.toUpper, c.toUpper, d.toUpper]
    if kw = "FROM" ∨ kw = "JOIN" then
      match rest with
      | e :: tail => if isPySpace e then some (tail.dropWhile isPySpace) else none
      | [] => none
    else
      none
  | _ => none

/-- Greedy identifier run constrained by the trailing `(?!\.)` lookahead:
if the maximal run is followed by `.` it is shortened by one character
(backtracking), failing when nothing is left to shorten. Returns the matched
group and the rest of the input after the match. -/
def takeIdentNotDot (l : List Char) : Option (List Char × List Char) :=
  match takeIdent l with
  | none => none
  | some (run, rest) =>
    match rest with
    | '.' :: _ =>
      if run.length ≥ 2 then
        some (run.take (run.length - 1), run.drop (run.length - 1) ++ rest)
      else
        none
    | _ => some (run, rest)

/-- Match of the fully-qualified pattern
`(?:FROM|JOIN)\s+(id)\.(id)\.(id)` at the head of the input. -/
def matchFullAt (l : List Char) : Option ((String × String × String) × List Char) :=
  match matchKwWs l with
  | none => none
  | some r0 =>
    match takeIdent r0 with
    | none => none
    | some (id1, r1) =>
      match r1 with
      | '.' :: r2 =>
        match takeIdent r2 with
        | none => none
        | some (id2, r3) =>
          match r3 with
          | '.' :: r4 =>
            match takeIdent r4 with
            | none => none
            | some (id3, r5) =>
              some ((String.mk id1, String.mk id2, String.mk id3), r5)
          | _ => none
      | _ => none

/-- Match of the partial pattern `(?:FROM|JOIN)\s+(id)\.(id)(?!\.)` at the
head of the input. -/
def matchPartialAt (l : List Char) : Option ((String × String) × List Char) :=
  match matchKwWs l with
  | none => none
  | some r0 =>
    match takeIdent r0 with
    | none => none
    | some (id1, r1) =>
      match r1 with
      | '.' :: r2 =>
        match takeIdentNotDot r2 with
        | none => none
        | some (id2, r3) => some ((String.mk id1, String.mk id2), r3)
      | _ => none

/-- Match of the bare pattern `(?:FROM|JOIN)\s+(id)(?!\.)` at the head of
the input. -/
def matchBareAt (l : List Char) : Option (String × List Char) :=
  match matchKwWs l with
  | none => none
  | some r0 =>
    match takeIdentNotDot r0 with
    | none => none
    | some (id1, r1) => some (String.mk id1, r1)

/-- Model of `re.finditer`: scan left to right, at each position try the matcher; on
success record the groups and resume after the match, otherwise advance one
character. Fueled by the input length (every step consumes at least one
character). -/
def finditerAux (matcher : List Char → Option (γ × List Char)) :
    Nat → List Char → List γ
  | 0, _ => []
  | _ + 1, [] => []
  | fuel + 1, c :: rest =>
    match matcher (c :: rest) with
    | some (g, rem) => g :: finditerAux matcher fuel rem
    | none => finditerAux matcher fuel rest

/-- Model of `re.finditer` over a whole string. -/
def finditer (matcher : List Char → Option (γ × List Char)) (s : String) :
    List γ :=
  finditerAux matcher (s.data.length + 1) s.data

/-- A `(database, schema, table)` reference; `none` components mirror Python
`None`. -/
abbrev TableRef := Option String × Option String × String

/-- The reserved-keyword set of `_extract_tables_from_sql`. -/
def extractionKeywords : List String :=
  ["SELECT", "WHERE", "AND", "OR", "NOT", "IN", "EXISTS", "AS", "ON",
   "LEFT", "RIGHT", "INNER", "OUTER", "CROSS"]

/-- Model of `any(t[2].upper() == table.upper() for t in tables)`. -/
def hasTableNamed (acc : List TableRef) (tbl : String) : Bool :=
  acc.any (fun r => strUpper r.2.2 = strUpper tbl)

/-- Model of `_extract_tables_from_sql` (`routers/query.py` lines 78-110): strip line
comments then block comments, collect fully-qualified references, then
partial (`schema.table`) references not duplicating an already-captured
table name, then bare table names not in the keyword set and not already
captured. -/
def extract_tables_from_sql (sql : String) : List TableRef :=
  let clean := removeBlockComments (removeLineComments sql)
  let fullRefs : List TableRef :=
    (finditer matchFullAt clean).map (fun g => (some g.1, some g.2.1, g.2.2))
  let withPartial :=
    (finditer matchPartialAt clean).foldl
      (fun acc g =>
        if hasTableNamed acc g.2 then acc else acc ++ [(none, some g.1, g.2)])
      fullRefs
  (finditer matchBareAt clean).foldl
    (fun acc t =>
      if extractionKeywords.contains (strUpper t) ∨ hasTableNamed acc t then acc
      else acc ++ [(none, none, t)])
    withPartial

/-! ### Scoped metadata cache (`services/cache.py`, `MetadataCache`)

The `TTLCache` stores are modelled as maps from the pre-hash key structure
(the argument tuple fed to `_make_key`, md5-hashing elided) to values; TTL
and LRU eviction are not exercised by the claims. -/

/-- One cache category's store: key tuple to value. -/
def CacheStore (α : Type) := List String → Option α

/-- Empty store / `cache.clear()`. -/
def storeClear : CacheStore α := fun _ => none

/-- Model of `cache[key] = value`. -/
def storeSet (k : List String) (v : α) (m : CacheStore α) : CacheStore α :=
  fun k' => if k' = k then some v else m k'

/-- Model of `cache.pop(key, None)`. -/
def storePop (k : List String) (m : CacheStore α) : CacheStore α :=
  fun k' => if k' = k then none else m k'

/-- Model of `_scoped_key` (`cache.py` lines 125-129): prepend the scope to the key
tuple when a (truthy) scope is given. -/
def scopedKey (scope : Option String) (args : List String) : List String :=
  match scope with
  | some s => if s ≠ "" then s :: args else args
  | none => args

/-- Python truthiness of an `Optional[str]`. -/
def truthy : Option String → Bool
  | none => false
  | some s => s ≠ ""

/-- Model of `get_schemas` (`cache.py` lines 145-148). -/
def get_schemas (database : String) (scope : Option String)
    (m : CacheStore α) : Option α :=
  m (scopedKey scope [database])

/-- Model of `set_schemas` (`cache.py` lines 150-153). -/
def set_schemas (database : String) (data : α) (scope : Option String)
    (m : CacheStore α) : CacheStore α :=
  storeSet (scopedKey scope [database]) data m

/-- Model of `clear_schemas` (`cache.py` lines 155-161): with a truthy database, pop
that one scoped key; otherwise clear the whole category. -/
def clear_schemas (database : Option String) (scope : Option String)
    (m : CacheStore α) : CacheStore α :=
  if truthy database then storePop (scopedKey scope [database.getD ""]) m
  else storeClear

/-- Model of `clear_tables` (`cache.py` lines 174-180). -/
def clear_tables (database schema : Option String) (scope : Option String)
    (m : CacheStore α) : CacheStore α :=
  if truthy database ∧ truthy schema then
    storePop (scopedKey scope [database.getD "", schema.getD ""]) m
  else storeClear

/-- Model of `clear_columns` (`cache.py` lines 193-199). -/
def clear_columns (database schema table : Option String)
    (scope : Option String) (m : CacheStore α) : CacheStore α :=
  if truthy database ∧ truthy schema ∧ truthy table then
    storePop (scopedKey scope [database.getD "", schema.getD "", table.getD ""]) m
  else storeClear

/-- Model of `clear_capabilities` (`cache.py` lines 221-227). -/
def clear_capabilities (database schema : Option String)
    (scope : Option String) (m : CacheStore α) : CacheStore α :=
  if truthy database ∧ truthy schema then
    storePop (scopedKey scope [database.getD "", schema.getD ""]) m
  else storeClear

/-- Model of `clear_databases` (`cache.py` lines 140-142): always clears the whole
category (the databases store is keyed by `scope or "all"` and has no keyed
invalidation at all). -/
def clear_databases (_m : CacheStore α) : CacheStore α :=
  storeClear

/-! ### Identifier safety layer -/

/-- Core of `^[A-Za-z_][A-Za-z0-9_$]*$` on a character list (without the
`$`-before-trailing-newline allowance). -/
def barewordCore : List Char → Bool
  | [] => false
  | c :: rest =>
    (c.isAlpha ∨ c = '_') ∧ rest.all (fun d => d.isAlphanum ∨ d = '_' ∨ d = '$')

/-- Model of `re.match(r'^[A-Za-z_][A-Za-z0-9_$]*$', name)`: Python `$` also matches
just before a newline that ends the string. -/
def matchesBareword (name : String) : Bool :=
  barewordCore name.data ∨
    (name.data.getLast? = some '\n' ∧ barewordCore name.data.dropLast)

/-- Core of `^"[^"]*"$`: a double quote, any run of non-quote characters,
a closing double quote spanning the whole input. -/
def alreadyQuotedCore (l : List Char) : Bool :=
  match l with
  | '"' :: rest =>
    match rest.getLast? with
    | some '"' => rest.length ≥ 1 ∧ rest.dropLast.all (· ≠ '"')
    | _ => false
  | _ => false

/-- Model of `re.match(r'^"[^"]*"$', name)` with the `$`-before-trailing-newline
allowance. -/
def matchesAlreadyQuoted (name : String) : Bool :=
  alreadyQuotedCore name.data ∨
    (name.data.getLast? = some '\n' ∧ alreadyQuotedCore name.data.dropLast)

/-- Model of `_validate_identifier` (`routers/metadata.py` lines 34-40): barewords
pass through, already-quoted names pass through, anything else is wrapped
in double quotes with internal double quotes doubled. -/
def validate_identifier (name : String) : String :=
  if name = "" ∨ ¬ matchesBareword name then
    if ¬ matchesAlreadyQuoted name then
      "\"" ++ doubleQuotes name ++ "\""
    else name
  else name

/-- Modelled from the spec (section 4.1 wording, for comparison with the
source behaviour): a bareword is returned unchanged and every other
identifier is wrapped in the warehouse's double-quote syntax with internal
double quotes doubled. -/
def quoteSpec (name : String) : String :=
  if matchesBareword name then name
  else "\"" ++ doubleQuotes name ++ "\""

/-- The dangerous substrings rejected by
`SnowflakeService._validate_identifier` (`services/snowflake.py` line 40). -/
def dangerousPatterns : List String :=
  [";", "--", "/*", "*/", "DROP", "DELETE", "INSERT", "UPDATE", "TRUNCATE"]

/-- Substring containment on character lists (Python `in` on `str`). -/
def containsSub (needle hay : List Char) : Bool :=
  (List.range (hay.length + 1)).any (fun i => needle.isPrefixOf (hay.drop i))

/-- Model of `SnowflakeService._validate_identifier` (`services/snowflake.py` lines
29-57): reject empty names and dangerous substrings, split on dots, require
each part to match the bareword pattern, and return every part wrapped in
double quotes, re-joined with dots. -/
def validate_identifier_sf (name : String) : Except String String :=
  if name = "" then .error "Identifier cannot be empty"
  else
    let nameUpper := strUpper name
    match dangerousPatterns.find? (fun p => containsSub p.data nameUpper.data) with
    | some p => .error ("Invalid identifier: contains forbidden pattern '" ++ p ++ "'")
    | none =>
      let parts := (splitOnDot name.data).map String.mk
      match parts.find? (fun part => ¬ matchesBareword part) with
      | some part =>
        .error ("Invalid identifier part: '" ++ part ++
          "'. Only alphanumeric, underscore, and $ allowed.")
      | none =>
        .ok (String.intercalate "." (parts.map (fun part => "\"" ++ part ++ "\"")))

/-! ### Metadata error handling (`routers/metadata.py`, `_handle_snowflake_error`) -/

/-- The exception classes distinguished by `_handle_snowflake_error`:
Snowflake `OperationalError`, builtin `TimeoutError`, Snowflake
`ProgrammingError` (with its `errno`), and anything else. Each carries
`str(e)`. -/
inductive SnowflakeError where
  | operational (msg : String)
  | timeout (msg : String)
  | programming (errno : Option Int) (msg : String)
  | other (msg : String)
deriving DecidableEq, Repr

/-- Result of a metadata listing that hit a warehouse error: either the
degraded empty list, or the 503 `JSONResponse`. -/
inductive MetadataErrorResult where
  | emptyList
  | serviceUnavailable (detail : String)
deriving DecidableEq, Repr

/-- Whether a `ProgrammingError` is of the permission/not-found class
(`routers/metadata.py` lines 74-81). -/
def isPermissionProgramming (errno : Option Int) (msg : String) : Bool :=
  errno = some 2003 ∨ errno = some 2043 ∨ errno = some 90105 ∨
    containsSub "does not exist".data (strLower msg).data ∨
    containsSub "not authorized".data (strLower msg).data

/-- Model of `_handle_snowflake_error` (`routers/metadata.py` lines 55-85):
connectivity/timeout errors become the 503 response; permission-class
programming errors become the empty list; every other error also degrades to
the empty list. The function never raises. -/
def handle_snowflake_error : SnowflakeError → MetadataErrorResult
  | .operational msg => .serviceUnavailable msg
  | .timeout msg => .serviceUnavailable msg
  | .programming errno msg =>
    if isPermissionProgramming errno msg then .emptyList else .emptyList
  | .other _ => .emptyList

/-! ### Multi-statement execution (`execute_query`, `routers/query.py` lines 426-453) -/

/-- One statement's result set as seen through the cursor: `none` when
`cursor.description` is `None` (no result set), otherwise the column names
and fetched rows. -/
abbrev ResultSet (α : Type) := Option (List String × List (List α))

/-- One iteration of the `while True` loop: keep the current statement's
result when it returned rows or when nothing has been kept yet
(`if current_rows or not rows`). -/
def keepStep (acc : List String × List (List α)) (s : ResultSet α) :
    List String × List (List α) :=
  match s with
  | none => acc
  | some (c, r) => if ¬ r.isEmpty ∨ acc.2.isEmpty then (c, r) else acc

/-- The multi-statement retention loop: fold `keepStep` over the statements'
result sets starting from empty `columns`/`rows`. -/
def multi_statement_result (sets : List (ResultSet α)) :
    List String × List (List α) :=
  sets.foldl keepStep ([], [])

/-! ### The session's query-result map and its reachable states
(`execute_query` lines 458-499, `cancel_query` lines 590-601) -/

/-- The `session.query_results` dict. -/
def QMap (α : Type) := String → Option (StoredResult α)

/-- The entry stored by `execute_query` on warehouse success
(`routers/query.py` lines 462-470). -/
def successEntry (columns : List String) (rows : List (List α))
    (tms : Nat) (t1 t2 : String) : StoredResult α :=
  { status := .SUCCESS
    columns := some columns
    rows := some rows
    row_count := some rows.length
    execution_time_ms := some tms
    started_at := some t1
    completed_at := some t2 }

/-- The entry stored by `execute_query` on warehouse failure
(`routers/query.py` lines 493-499). -/
def failedEntry (msg : String) (tms : Nat) (t1 t2 : String) : StoredResult α :=
  { status := .FAILED
    error_message := some msg
    execution_time_ms := some tms
    started_at := some t1
    completed_at := some t2 }

/-- Store an entry under a query id. -/
def qmapStore (qid : String) (r : StoredResult α) (m : QMap α) : QMap α :=
  fun k => if k = qid then some r else m k

/-- The effect of `cancel_query` on the map: a missing id or a non-RUNNING
entry leaves the map unchanged (the endpoint raises before any mutation);
a RUNNING entry is set to CANCELLED. -/
def cancelStep (qid now : String) (m : QMap α) : QMap α :=
  match m qid with
  | none => m
  | some r =>
    if r.status = .RUNNING then qmapStore qid (cancel_query now r).1 m
    else m

/-- The maps reachable through the public execute/status/results/cancel
interface: starting empty, `execute_query` stores a SUCCESS or FAILED entry,
and `cancel_query` applies `cancelStep` (status and results reads do not
mutate the map). -/
inductive ReachableQMap : QMap α → Prop where
  | empty : ReachableQMap (fun _ => none)
  | exec_ok (qid : String) (columns : List String) (rows : List (List α))
      (tms : Nat) (t1 t2 : String) {m : QMap α} :
      ReachableQMap m →
      ReachableQMap (qmapStore qid (successEntry columns rows tms t1 t2) m)
  | exec_fail (qid msg : String) (tms : Nat) (t1 t2 : String) {m : QMap α} :
      ReachableQMap m →
      ReachableQMap (qmapStore qid (failedEntry msg tms t1 t2) m)
  | cancel (qid now : String) {m : QMap α} :
      ReachableQMap m → ReachableQMap (cancelStep qid now m)

/-! ## Theorems -/

/-- C1 (code bug): on the input `"SELECT * FROM db.sch.tbl"` the extractor
does not return only the fully-qualified reference. The `(?!\.)` lookahead of
the partial and bare patterns is defeated by backtracking into the greedy
identifier group, so the spurious partial reference `(None, db, sc)` and
bare reference `(None, None, d)` are also emitted, contradicting the
precedence rule the code's own comment and the spec state. -/
theorem extract_tables_backtracking :
    extract_tables_from_sql "SELECT * FROM db.sch.tbl" =
      [(some "db", some "sch", "tbl"), (none, some "db", "sc"),
       (none, none, "d")] := by
  decide

/-- Helper: when the remaining input contains no semicolon outside a string
literal (per the splitter's own string tracking), the split loop just
accumulates every character into the current statement. -/
theorem splitLoop_no_semi (input : List Char) :
    ∀ (acc : List String) (cur : List Char) (sc : Option Char),
      noUnquotedSemi input sc = true →
      splitLoop input acc cur sc = flushStmt acc (cur ++ input) := by
  induction input with
  | nil =>
    intro acc cur sc _
    simp [splitLoop]
  | cons c rest ih =>
    intro acc cur sc h
    cases sc with
    | none =>
      by_cases hq : c = '\'' ∨ c = '"'
      · have h' : noUnquotedSemi rest (some c) = true := by
          simpa [noUnquotedSemi, hq] using h
        rw [show splitLoop (c :: rest) acc cur none =
              splitLoop rest acc (cur ++ [c]) (some c) by simp [splitLoop, hq]]
        rw [ih acc (cur ++ [c]) (some c) h']
        simp
      · by_cases hs : c = ';'
        · exfalso
          simp [noUnquotedSemi, hq, hs] at h
        · have h' : noUnquotedSemi rest none = true := by
            simpa [noUnquotedSemi, hq, hs] using h
          rw [show splitLoop (c :: rest) acc cur none =
                splitLoop rest acc (cur ++ [c]) none by simp [splitLoop, hq, hs]]
          rw [ih acc (cur ++ [c]) none h']
          simp
    | some q =>
      by_cases hq : c = q
      · have h' : noUnquotedSemi rest none = true := by
          simpa [noUnquotedSemi, hq] using h
        rw [show splitLoop (c :: rest) acc cur (some q) =
              splitLoop rest acc (cur ++ [c]) none by simp [splitLoop, hq]]
        rw [ih acc (cur ++ [c]) none h']
        simp
      · have h' : noUnquotedSemi rest (some q) = true := by
          simpa [noUnquotedSemi, hq] using h
        rw [show splitLoop (c :: rest) acc cur (some q) =
              splitLoop rest acc (cur ++ [c]) (some q) by simp [splitLoop, hq]]
        rw [ih acc (cur ++ [c]) (some q) h']
        simp

/-- C2 (counterexample): the input `"SELECT 1 -- note"` contains no
semicolon at all, yet the splitter does not return the trimmed input: the
line comment is stripped first, so the single returned statement is
`"SELECT 1"`, not `"SELECT 1 -- note"`. -/
theorem split_statements_counterexample :
    split_sql_statements "SELECT 1 -- note" = ["SELECT 1"] ∧
    pyStrip "SELECT 1 -- note" = "SELECT 1 -- note" ∧
    split_sql_statements "SELECT 1 -- note" ≠ [pyStrip "SELECT 1 -- note"] := by
  refine ⟨by decide, by decide, by decide⟩

/-- C2 (amended): for every SQL text whose comment-stripped form contains no
semicolon outside a string literal, the splitter returns exactly one
statement equal to the trimmed comment-stripped input when that is
non-empty, and no statement when it is empty; in particular a semicolon
inside a string literal or inside a comment never splits the input. -/
theorem split_statements_single (sql : String)
    (h : noUnquotedSemi (removeLineComments (removeBlockComments sql)).data
          none = true) :
    split_sql_statements sql =
      if pyStrip (removeLineComments (removeBlockComments sql)) = "" then []
      else [pyStrip (removeLineComments (removeBlockComments sql))] := by
  unfold split_sql_statements
  rw [splitLoop_no_semi _ _ _ _ h]
  simp [flushStmt]

/-- Witness for `split_statements_single`: the spec's own example input
`"SELECT ';' -- ignore; this"` satisfies the hypothesis and yields the one
statement `"SELECT ';'"`. -/
theorem split_statements_single_witness :
    noUnquotedSemi
        (removeLineComments (removeBlockComments "SELECT ';' -- ignore; this")).data
        none = true ∧
    split_sql_statements "SELECT ';' -- ignore; this" = ["SELECT ';'"] := by
  have h : noUnquotedSemi
      (removeLineComments (removeBlockComments "SELECT ';' -- ignore; this")).data
      none = true := by decide
  refine ⟨h, ?_⟩
  rw [split_statements_single _ h]
  decide

/-- C3 (counterexample): a stored query in status CANCELLED yields a
successful paginated response — `get_query_results` only rejects FAILED and
RUNNING, so the claim that every non-SUCCESS status fails is false. -/
theorem results_cancelled_counterexample :
    get_query_results (α := Nat)
        { status := .CANCELLED, columns := some ["A"], rows := some [[1], [2]] }
        1 100 =
      .ok { columns := ["A"], rows := [[1], [2]], total_rows := 2, page := 1,
            page_size := 100, has_more := false } := by
  rfl

/-- C3 (amended): the results operation fails with the stored error for a
FAILED query and with the still-running signal for a RUNNING query; every
other stored status — SUCCESS, and likewise CANCELLED or PENDING — yields
the paginated row slice (empty when no rows are stored). -/
theorem results_status_dispatch (r : StoredResult Nat) (page psize : Nat) :
    (r.status = .FAILED →
      get_query_results r page psize =
        .error ⟨400, "Query failed: " ++ r.error_message.getD "Unknown error"⟩) ∧
    (r.status = .RUNNING →
      get_query_results r page psize = .error ⟨202, "Query is still running"⟩) ∧
    (r.status ≠ .FAILED → r.status ≠ .RUNNING →
      get_query_results r page psize =
        .ok { columns := r.columns.getD []
              rows := ((r.rows.getD []).drop ((page - 1) * psize)).take psize
              total_rows := (r.rows.getD []).length
              page := page
              page_size := psize
              has_more :=
                decide ((page - 1) * psize + psize < (r.rows.getD []).length) }) := by
  refine ⟨fun h => ?_, fun h => ?_, fun h1 h2 => ?_⟩
  · simp [get_query_results, h]
  · simp [get_query_results, h]
  · simp [get_query_results, h1, h2]

/-- Witness for `results_status_dispatch` at a FAILED, a RUNNING and a
CANCELLED entry. -/
theorem results_status_dispatch_witness :
    get_query_results (α := Nat)
        { status := .FAILED, error_message := some "boom" } 1 100 =
      .error ⟨400, "Query failed: boom"⟩ ∧
    get_query_results (α := Nat) { status := .RUNNING } 1 100 =
      .error ⟨202, "Query is still running"⟩ ∧
    get_query_results (α := Nat) { status := .CANCELLED } 2 50 =
      .ok { columns := [], rows := [], total_rows := 0, page := 2,
            page_size := 50, has_more := false } := by
  refine ⟨?_, ?_, ?_⟩
  · rw [(results_status_dispatch
        { status := .FAILED, error_message := some "boom" } 1 100).1 rfl]
    rfl
  · rw [(results_status_dispatch { status := .RUNNING } 1 100).2.1 rfl]
  · rw [(results_status_dispatch { status := .CANCELLED } 2 50).2.2
        (by decide) (by decide)]
    rfl

/-- C4 (counterexample): with entries cached for the same database under two
scopes, invalidating the schemas category with scope `"A"` and no key also
removes scope `"B"`'s entry — the scope argument is ignored when the key is
omitted, so other scopes are not left unchanged. -/
theorem clear_schemas_scope_counterexample :
    get_schemas "D" (some "B")
        (set_schemas "D" 1 (some "B")
          (set_schemas "D" 0 (some "A") (storeClear (α := Nat)))) = some 1 ∧
    get_schemas "D" (some "B")
        (clear_schemas none (some "A")
          (set_schemas "D" 1 (some "B")
            (set_schemas "D" 0 (some "A") (storeClear (α := Nat))))) = none := by
  refine ⟨by decide, by decide⟩

/-- C4 (amended): for every keyed cache category, invalidate called with a
scope but no key clears the whole category globally (the scope is ignored);
entries of other scopes are removed too. Only invalidate with a full key
removes the single entry under that scope's key, leaving every other key —
in particular the same key under a different scope — unchanged. The
databases category's invalidate always clears globally. -/
theorem invalidate_without_key_is_global :
    (∀ (scope : Option String) (m : CacheStore Nat),
        clear_schemas none scope m = storeClear) ∧
    (∀ (scope : Option String) (m : CacheStore Nat),
        clear_tables none none scope m = storeClear) ∧
    (∀ (scope : Option String) (m : CacheStore Nat),
        clear_columns none none none scope m = storeClear) ∧
    (∀ (scope : Option String) (m : CacheStore Nat),
        clear_capabilities none none scope m = storeClear) ∧
    (∀ m : CacheStore Nat, clear_databases m = storeClear) ∧
    (∀ (db : String) (scope : Option String) (m : CacheStore Nat),
        db ≠ "" →
        clear_schemas (some db) scope m = storePop (scopedKey scope [db]) m) ∧
    (∀ (db s1 s2 : String) (m : CacheStore Nat),
        db ≠ "" → s1 ≠ "" → s2 ≠ "" → s1 ≠ s2 →
        get_schemas db (some s2) (clear_schemas (some db) (some s1) m) =
          get_schemas db (some s2) m) := by
  refine ⟨fun scope m => ?_, fun scope m => ?_, fun scope m => ?_,
    fun scope m => ?_, fun m => ?_, fun db scope m hdb => ?_,
    fun db s1 s2 m hdb h1 h2 hne => ?_⟩
  · simp [clear_schemas, truthy]
  · simp [clear_tables, truthy]
  · simp [clear_columns, truthy]
  · simp [clear_capabilities, truthy]
  · rfl
  · simp [clear_schemas, truthy, hdb]
  · simp [clear_schemas, get_schemas, truthy, storePop, scopedKey, hdb, h1, h2,
      hne.symm]

/-- Witness for `invalidate_without_key_is_global` at concrete scopes and a
concrete store. -/
theorem invalidate_without_key_is_global_witness :
    clear_schemas (some "D") (some "A")
        (set_schemas "D" 7 (some "A") (storeClear (α := Nat))) ["A", "D"] =
      none ∧
    get_schemas "D" (some "B")
        (clear_schemas (some "D") (some "A")
          (set_schemas "D" 9 (some "B") (storeClear (α := Nat)))) = some 9 := by
  have h := invalidate_without_key_is_global
  constructor
  · rw [h.2.2.2.2.2.1 "D" (some "A") _ (by decide)]
    decide
  · rw [h.2.2.2.2.2.2 "D" "A" "B" _ (by decide) (by decide) (by decide)
        (by decide)]
    decide

/-- C5 (counterexample): the raw name `"x"` (double quotes included) is not
a bareword, yet `_validate_identifier` returns it unchanged instead of
wrapping it with its internal quotes doubled as the claim requires
(compare `quoteSpec`, the claim's formula). -/
theorem validate_identifier_counterexample :
    validate_identifier "\"x\"" = "\"x\"" ∧
    matchesBareword "\"x\"" = false ∧
    quoteSpec "\"x\"" = "\"\"\"x\"\"\"" ∧
    validate_identifier "\"x\"" ≠ quoteSpec "\"x\"" := by
  refine ⟨by decide, by decide, by decide, by decide⟩

/-- C5 (amended): barewords pass through unchanged, identifiers already
wholly wrapped in double quotes (with no internal quote) also pass through
unchanged, and every other identifier is wrapped in double quotes with each
internal double quote doubled; the SnowflakeService variant instead returns
even barewords wrapped in quotes. -/
theorem validate_identifier_cases (name : String) :
    (matchesBareword name = true → validate_identifier name = name) ∧
    (matchesAlreadyQuoted name = true → validate_identifier name = name) ∧
    (matchesBareword name = false → matchesAlreadyQuoted name = false →
      validate_identifier name = "\"" ++ doubleQuotes name ++ "\"") ∧
    (validate_identifier_sf "abc" = .ok "\"abc\"" ∧ ("abc" : String) ≠ "\"abc\"") := by
  refine ⟨fun h => ?_, fun h => ?_, fun hb ha => ?_, by rfl, by decide⟩
  · have hne : name ≠ "" := by
      intro he
      rw [he] at h
      exact absurd h (by decide)
    simp [validate_identifier, hne, h]
  · unfold validate_identifier
    split
    · simp [h]
    · rfl
  · simp [validate_identifier, hb, ha]

/-- Witness for `validate_identifier_cases` at a bareword, an
already-quoted name, and a name that is neither. -/
theorem validate_identifier_cases_witness :
    validate_identifier "abc" = "abc" ∧
    validate_identifier "\"My Table\"" = "\"My Table\"" ∧
    validate_identifier "my table" = "\"my table\"" := by
  have h1 := (validate_identifier_cases "abc").1 (by decide)
  have h2 := (validate_identifier_cases "\"My Table\"").2.1 (by decide)
  have h3 := (validate_identifier_cases "my table").2.2.1 (by decide) (by decide)
  exact ⟨h1, h2, by rw [h3]; rfl⟩

/-- Helper: `getD` after `getLast?` of a cons cell shifts the default. -/
theorem getLast?_getD_cons (a b : β) (l : List β) :
    ((a :: l).getLast?).getD b = (l.getLast?).getD a := by
  cases l with
  | nil => rfl
  | cons c t =>
    rw [List.getLast?_cons_cons]
    cases h : (c :: t).getLast? with
    | none => exact absurd (List.getLast?_eq_none_iff.mp h) (List.cons_ne_nil c t)
    | some x => rfl

/-- Helper: the retention fold keeps the last result set with non-empty
rows; failing that, the last produced result set when nothing had been kept
before the fold started, and the incoming accumulator otherwise. -/
theorem foldl_keepStep (sets : List (ResultSet α)) :
    ∀ acc : List String × List (List α),
      sets.foldl keepStep acc =
        ((sets.filterMap id).filter (fun p => !p.2.isEmpty)).getLast?.getD
          (if acc.2.isEmpty then ((sets.filterMap id).getLast?).getD acc
           else acc) := by
  induction sets with
  | nil =>
    intro acc
    by_cases ha : acc.2.isEmpty <;> simp [ha]
  | cons s rest ih =>
    intro acc
    cases s with
    | none =>
      rw [List.foldl_cons]
      have hstep : keepStep acc none = acc := rfl
      rw [hstep, ih acc]
      simp [List.filterMap_cons]
    | some p =>
      obtain ⟨c, r⟩ := p
      have hfm : List.filterMap id (some (c, r) :: rest) =
          (c, r) :: List.filterMap id rest := by
        simp [List.filterMap_cons]
      by_cases hr : r.isEmpty
      · have hfc : List.filter (fun p => !p.2.isEmpty)
            ((c, r) :: List.filterMap id rest) =
            List.filter (fun p => !p.2.isEmpty) (List.filterMap id rest) := by
          rw [List.filter_cons]
          simp [hr]
        have hstep : keepStep acc (some (c, r)) =
            if acc.2.isEmpty then (c, r) else acc := by
          show (if ¬ r.isEmpty ∨ acc.2.isEmpty then (c, r) else acc) = _
          rw [hr]
          simp only [eq_self_iff_true, not_true, false_or]
        rw [List.foldl_cons, hstep]
        by_cases ha : acc.2.isEmpty
        · rw [if_pos ha, ih (c, r), hfm, hfc, if_pos ha, getLast?_getD_cons]
          congr 1
          simp [hr]
        · rw [if_neg ha, ih acc, hfm, hfc]
          congr 1
          simp [ha]
      · have hr' : r.isEmpty = false := by
          cases h' : r.isEmpty
          · rfl
          · exact absurd h' hr
        have hfc : List.filter (fun p => !p.2.isEmpty)
            ((c, r) :: List.filterMap id rest) =
            (c, r) :: List.filter (fun p => !p.2.isEmpty)
              (List.filterMap id rest) := by
          rw [List.filter_cons]
          simp [hr']
        have hstep : keepStep acc (some (c, r)) = (c, r) := by
          simp [keepStep, hr']
        rw [List.foldl_cons, hstep, ih (c, r), hfm, hfc, getLast?_getD_cons]
        congr 1
        simp [hr']

/-- C6: the retained multi-statement payload is the last statement's result
set with non-empty rows, or — when every result-producing statement
returned empty rows — the final result-producing statement's own empty set;
the script `"CREATE TABLE x; SELECT * FROM x"` splits into two statements,
and with a row-returning SELECT as the second result set only the SELECT's
result set is retained. -/
theorem multi_statement_keeps_last_nonempty (sets : List (ResultSet Nat)) :
    multi_statement_result sets =
      ((sets.filterMap id).filter (fun p => !p.2.isEmpty)).getLast?.getD
        (((sets.filterMap id).getLast?).getD ([], [])) ∧
    split_sql_statements "CREATE TABLE x; SELECT * FROM x" =
      ["CREATE TABLE x", "SELECT * FROM x"] ∧
    multi_statement_result
        [some (["status"], [[0]]), some (["A"], [[1], [2]])] =
      (["A"], [[1], [2]]) := by
  refine ⟨?_, by decide, by decide⟩
  rw [multi_statement_result, foldl_keepStep sets ([], [])]
  rfl

/-- C7: the cancel operation's only legal transition is RUNNING →
CANCELLED: a query in any other status is rejected with the
not-cancellable error and its stored entry is unchanged, while a RUNNING
query is marked CANCELLED exactly once and a second cancel of the updated
entry is rejected. -/
theorem cancel_only_from_running (r : StoredResult Nat) (t t' : String) :
    (r.status ≠ .RUNNING →
      cancel_query t r =
        (r, .error ⟨400,
          "Cannot cancel query with status '" ++ r.status.str ++ "'"⟩)) ∧
    (r.status = .RUNNING →
      cancel_query t r =
        ({ r with status := .CANCELLED, completed_at := some t },
          .ok "Query cancelled") ∧
      cancel_query t' { r with status := .CANCELLED, completed_at := some t } =
        ({ r with status := .CANCELLED, completed_at := some t },
          .error ⟨400, "Cannot cancel query with status 'CANCELLED'"⟩)) := by
  constructor
  · intro h
    simp [cancel_query, h]
  · intro h
    constructor
    · simp [cancel_query, h]
    · simp [cancel_query, QueryStatus.str]

/-- Witness for `cancel_only_from_running`: a RUNNING entry is cancelled,
the second cancel is rejected, and a SUCCESS entry is rejected unchanged. -/
theorem cancel_only_from_running_witness :
    cancel_query "t1" ({ status := .RUNNING } : StoredResult Nat) =
      ({ status := .CANCELLED, completed_at := some "t1" },
        .ok "Query cancelled") ∧
    cancel_query "t2"
        ({ status := .CANCELLED, completed_at := some "t1" } : StoredResult Nat) =
      ({ status := .CANCELLED, completed_at := some "t1" },
        .error ⟨400, "Cannot cancel query with status 'CANCELLED'"⟩) ∧
    cancel_query "t3" ({ status := .SUCCESS } : StoredResult Nat) =
      ({ status := .SUCCESS },
        .error ⟨400, "Cannot cancel query with status 'SUCCESS'"⟩) := by
  have h2 := (cancel_only_from_running
    ({ status := .RUNNING } : StoredResult Nat) "t1" "t2").2 rfl
  have h3 := (cancel_only_from_running
    ({ status := .SUCCESS } : StoredResult Nat) "t3" "t3").1 (by decide)
  exact ⟨h2.1, h2.2, h3⟩

/-- Number of pages a client requests when paging through `N` rows with page
size `P`: pages are requested in order until `has_more` is false, which
happens at page `⌈N / P⌉` (at least one page is always requested). -/
def pageCount (N P : Nat) : Nat :=
  max 1 ((N + P - 1) / P)

/-- Helper: concatenating `k` consecutive `P`-sized slices of a list covers
the whole list once `k * P` reaches its length. -/
theorem chunksJoin (P : Nat) :
    ∀ (k : Nat) (l : List β), 0 < P → l.length ≤ k * P →
      ((List.range k).map (fun i => (l.drop (i * P)).take P)).flatten = l := by
  intro k
  induction k with
  | zero =>
    intro l _ h
    have h0 : l.length ≤ 0 := by simpa using h
    have hl : l = [] := List.eq_nil_of_length_eq_zero (Nat.le_zero.mp h0)
    subst hl
    simp
  | succ k ih =>
    intro l hP h
    rw [List.range_succ_eq_map, List.map_cons, List.flatten_cons, List.map_map]
    have h2 : ((fun i => (l.drop (i * P)).take P) ∘ Nat.succ) =
        (fun i => (((l.drop P).drop (i * P)).take P)) := by
      funext i
      simp only [Function.comp]
      congr 1
      rw [List.drop_drop]
      congr 1
      rw [Nat.succ_mul]
      ring
    have h3 : (l.drop P).length ≤ k * P := by
      have he : (k + 1) * P = k * P + P := by ring
      simp only [List.length_drop]
      omega
    rw [h2, ih (l.drop P) hP h3]
    simp

/-- C8: paging a SUCCESS result with any positive page size `P`, each page
`i + 1` (for `i < pageCount`) is the slice `rows[i*P : i*P + P]` with
`has_more` true exactly when the page's end index `(i+1)*P` is still short
of the total row count; concatenating the returned slices in page order
reconstructs the stored row matrix exactly, and the last requested page has
`has_more` false. -/
theorem pagination_roundtrip (cols : List String) (rows : List (List Nat))
    (tms : Nat) (t1 t2 : String) (P : Nat) (hP : 0 < P) :
    (∀ i, i < pageCount rows.length P →
      get_query_results (successEntry cols rows tms t1 t2) (i + 1) P =
        .ok { columns := cols
              rows := (rows.drop (i * P)).take P
              total_rows := rows.length
              page := i + 1
              page_size := P
              has_more := decide ((i + 1) * P < rows.length) }) ∧
    ((List.range (pageCount rows.length P)).map
        (fun i => (rows.drop (i * P)).take P)).flatten = rows ∧
    decide (pageCount rows.length P * P < rows.length) = false := by
  have hNk : rows.length ≤ pageCount rows.length P * P := by
    have hd := Nat.div_add_mod (rows.length + P - 1) P
    have hm : (rows.length + P - 1) % P < P := Nat.mod_lt _ hP
    rcases Nat.eq_zero_or_pos ((rows.length + P - 1) / P) with hq | hq
    · have hk : pageCount rows.length P = 1 := by
        rw [pageCount, hq]
        decide
      rw [hk]
      rw [hq] at hd
      omega
    · have hk : pageCount rows.length P = (rows.length + P - 1) / P := by
        rw [pageCount]
        omega
      rw [hk]
      rw [Nat.mul_comm] at hd
      generalize he : (rows.length + P - 1) / P * P = e at hd ⊢
      omega
  refine ⟨fun i hi => ?_, chunksJoin P _ rows hP hNk, ?_⟩
  · simp [get_query_results, successEntry, Nat.succ_mul]
  · exact decide_eq_false (Nat.not_lt.mpr hNk)

/-- Witness for `pagination_roundtrip` with three rows and page size two:
two pages, `has_more` true then false, concatenation restores the matrix. -/
theorem pagination_roundtrip_witness :
    get_query_results (successEntry ["A"] [[1], [2], [3]] 0 "s" "e") 1 2 =
      .ok { columns := ["A"], rows := [[1], [2]], total_rows := 3, page := 1,
            page_size := 2, has_more := true } ∧
    get_query_results (successEntry ["A"] [[1], [2], [3]] 0 "s" "e") 2 2 =
      .ok { columns := ["A"], rows := [[3]], total_rows := 3, page := 2,
            page_size := 2, has_more := false } ∧
    ((List.range (pageCount 3 2)).map
        (fun i => (([[1], [2], [3]] : List (List Nat)).drop (i * 2)).take 2)).flatten =
      [[1], [2], [3]] := by
  have h := pagination_roundtrip ["A"] [[1], [2], [3]] 0 "s" "e" 2 (by decide)
  refine ⟨?_, ?_, h.2.1⟩
  · rw [h.1 0 (by decide)]
    rfl
  · rw [h.1 1 (by decide)]
    rfl

/-- C9: metadata listing errors never surface as a generic fault:
connectivity/timeout-class warehouse errors yield the distinct
service-unavailable signal, programming errors of the permission/not-found
class yield the degraded empty list, and every remaining error also yields
the empty list. -/
theorem metadata_error_handling (e : SnowflakeError) :
    ((∃ m, e = .operational m) ∨ (∃ m, e = .timeout m) →
      ∃ d, handle_snowflake_error e = .serviceUnavailable d) ∧
    (∀ errno msg, e = .programming errno msg →
      isPermissionProgramming errno msg = true →
      handle_snowflake_error e = .emptyList) ∧
    (∀ errno msg, e = .programming errno msg →
      handle_snowflake_error e = .emptyList) ∧
    (∀ msg, e = .other msg → handle_snowflake_error e = .emptyList) ∧
    (handle_snowflake_error e = .emptyList ∨
      ∃ d, handle_snowflake_error e = .serviceUnavailable d) := by
  refine ⟨fun h => ?_, fun errno msg he _ => ?_, fun errno msg he => ?_,
    fun msg he => ?_, ?_⟩
  · rcases h with ⟨m, hm⟩ | ⟨m, hm⟩ <;> subst hm <;>
      exact ⟨m, by simp [handle_snowflake_error]⟩
  · subst he
    simp [handle_snowflake_error]
  · subst he
    simp [handle_snowflake_error]
  · subst he
    simp [handle_snowflake_error]
  · cases e with
    | operational m => exact Or.inr ⟨m, rfl⟩
    | timeout m => exact Or.inr ⟨m, rfl⟩
    | programming errno msg => exact Or.inl (by simp [handle_snowflake_error])
    | other m => exact Or.inl rfl

/-- Witness for `metadata_error_handling` at one error of each class. -/
theorem metadata_error_handling_witness :
    handle_snowflake_error (.operational "connection reset") =
      .serviceUnavailable "connection reset" ∧
    handle_snowflake_error
        (.programming (some 2003) "Object does not exist or not authorized") =
      .emptyList ∧
    handle_snowflake_error (.other "weird") = .emptyList := by
  have h1 := (metadata_error_handling (.operational "connection reset")).1
    (Or.inl ⟨"connection reset", rfl⟩)
  have h2 := (metadata_error_handling
      (.programming (some 2003) "Object does not exist or not authorized")).2.1
    (some 2003) "Object does not exist or not authorized" rfl (by decide)
  have h3 := (metadata_error_handling (.other "weird")).2.2.2.1 "weird" rfl
  exact ⟨by rfl, h2, h3⟩

/-- Unfolding of `cancelStep` when the query id is absent. -/
theorem cancelStep_none (qid now : String) (m : QMap α) (hq : m qid = none) :
    cancelStep qid now m = m := by
  unfold cancelStep
  rw [hq]

/-- Unfolding of `cancelStep` when the query id is present. -/
theorem cancelStep_some (qid now : String) (m : QMap α) (r0 : StoredResult α)
    (hq : m qid = some r0) :
    cancelStep qid now m =
      if r0.status = .RUNNING then qmapStore qid (cancel_query now r0).1 m
      else m := by
  unfold cancelStep
  rw [hq]

/-- Helper: every entry of a map reachable through the public
execute/status/results/cancel interface has terminal status SUCCESS or
FAILED. -/
theorem reachable_status (m : QMap Nat) (h : ReachableQMap m) :
    ∀ qid r, m qid = some r →
      r.status = QueryStatus.SUCCESS ∨ r.status = QueryStatus.FAILED := by
  induction h with
  | empty =>
    intro qid r hr
    exact absurd hr (by simp)
  | exec_ok qid0 cols rows tms t1 t2 hm ih =>
    intro qid r hr
    by_cases he : qid = qid0
    · rw [qmapStore, if_pos he] at hr
      rw [← Option.some.injEq (successEntry cols rows tms t1 t2) r |>.mp hr]
      exact Or.inl rfl
    · rw [qmapStore, if_neg he] at hr
      exact ih qid r hr
  | exec_fail qid0 msg tms t1 t2 hm ih =>
    intro qid r hr
    by_cases he : qid = qid0
    · rw [qmapStore, if_pos he] at hr
      rw [← Option.some.injEq (failedEntry msg tms t1 t2) r |>.mp hr]
      exact Or.inr rfl
    · rw [qmapStore, if_neg he] at hr
      exact ih qid r hr
  | @cancel qid0 now m' hm ih =>
    intro qid r hr
    cases hq : m' qid0 with
    | none =>
      rw [cancelStep_none qid0 now m' hq] at hr
      exact ih qid r hr
    | some r0 =>
      have hns : ¬ r0.status = QueryStatus.RUNNING := by
        rcases ih qid0 r0 hq with h1 | h1 <;> simp [h1]
      rw [cancelStep_some qid0 now m' r0 hq, if_neg hns] at hr
      exact ih qid r hr

/-- C10: every query result `execute_query` stores is already terminal
(SUCCESS or FAILED) the moment it becomes visible, so through the public
interface the still-running rejection of the results endpoint and the
RUNNING → CANCELLED transition of the cancel endpoint are unreachable:
`get_query_results` never answers with the 202 still-running error and
`cancel_query` always rejects, leaving every reachable map unchanged. -/
theorem stored_results_always_terminal (m : QMap Nat) (h : ReachableQMap m)
    (qid : String) (r : StoredResult Nat) (hr : m qid = some r) :
    (r.status = QueryStatus.SUCCESS ∨ r.status = QueryStatus.FAILED) ∧
    (∀ page psize, get_query_results r page psize ≠
      .error ⟨202, "Query is still running"⟩) ∧
    (∀ now, (cancel_query now r).2 =
      .error ⟨400, "Cannot cancel query with status '" ++ r.status.str ++ "'"⟩) ∧
    (∀ qid' now, cancelStep qid' now m = m) := by
  have hstat := reachable_status m h qid r hr
  refine ⟨hstat, fun page psize => ?_, fun now => ?_, fun qid' now => ?_⟩
  · rcases hstat with hs | hs <;> simp [get_query_results, hs]
  · rcases hstat with hs | hs <;> simp [cancel_query, hs]
  · cases hq : m qid' with
    | none => exact cancelStep_none qid' now m hq
    | some r0 =>
      have hns : ¬ r0.status = QueryStatus.RUNNING := by
        rcases reachable_status m h qid' r0 hq with h1 | h1 <;> simp [h1]
      rw [cancelStep_some qid' now m r0 hq, if_neg hns]

/-- Witness for `stored_results_always_terminal` on the reachable map
holding one successfully executed query. -/
theorem stored_results_always_terminal_witness :
    ((successEntry ["A"] [[(1 : Nat)]] 3 "s" "e").status =
        QueryStatus.SUCCESS ∨
      (successEntry ["A"] [[(1 : Nat)]] 3 "s" "e").status =
        QueryStatus.FAILED) ∧
    (∀ qid' now,
      cancelStep qid' now
          (qmapStore "q1" (successEntry ["A"] [[(1 : Nat)]] 3 "s" "e")
            (fun _ => none)) =
        qmapStore "q1" (successEntry ["A"] [[(1 : Nat)]] 3 "s" "e")
          (fun _ => none)) := by
  have h := stored_results_always_terminal
    (qmapStore "q1" (successEntry ["A"] [[(1 : Nat)]] 3 "s" "e")
      (fun _ => none))
    (ReachableQMap.exec_ok "q1" ["A"] [[1]] 3 "s" "e" ReachableQMap.empty)
    "q1" (successEntry ["A"] [[1]] 3 "s" "e") (by simp [qmapStore])
  exact ⟨h.1, h.2.2.2⟩

end MDLH
